import Mathlib

/-!
Verification of the Windows resource post-processing pipeline of
`nuitka/PostProcessing.py`: ICO container parsing, packed resource
structure serialization, icon resource construction, and the resource
embedding orchestration.  Byte streams are modelled as `List Nat`
(each element a byte value), machine integers as `Nat` with explicit
`% 2^w` where the width matters, and the process-terminating
`sysexit` calls as an `Option FatalError` component of each result.
-/

namespace NuitkaPost

/-- Byte `i` of a stream.  The source reads bytes via
`readable.read(n)` followed by `ctypes.memmove`; a read past the end
of the stream makes `memmove` copy unspecified adjacent memory into
the zero-initialized structure.  The embedding represents any byte
beyond the end of the stream as 0; no theorem below about general
streams depends on the value of such bytes. -/
def byteAt (s : List Nat) (i : Nat) : Nat := s.getD i 0

/-- Little-endian 16-bit value from two bytes. -/
def le16 (lo hi : Nat) : Nat := lo + 256 * hi

/-- Little-endian 32-bit value from four bytes. -/
def le32 (b0 b1 b2 b3 : Nat) : Nat := b0 + 256 * (b1 + 256 * (b2 + 256 * b3))

/-- Little-endian byte serialization of a 16-bit field. -/
def bytes16 (v : Nat) : List Nat := [v % 256, v / 256 % 256]

/-- Little-endian byte serialization of a 32-bit field. -/
def bytes32 (v : Nat) : List Nat :=
  [v % 256, v / 256 % 256, v / 65536 % 256, v / 16777216 % 256]

/-! ## ctypes structure layout

The source declares its structures with `ctypes.Structure`; the byte
image written by `convertStructureToBytes` (imported from
`nuitka.utils.WindowsResources`) is the memory image of the structure,
i.e. the layout ctypes computes from the declared field types and the
`_pack_` attribute: each field is placed at the current offset rounded
up to `min(alignment, pack)`, and the total size is the end offset
rounded up to `min(max alignment, pack)`.  Field types used by the
source: `c_char` (size 1, align 1), `c_short` (size 2, align 2),
`c_int` (size 4, align 4); byte order is the native little-endian
order of the Windows targets. -/

/-- Round `n` up to the next multiple of `a` (for `a > 0`). -/
def alignUp (n a : Nat) : Nat := (n + a - 1) / a * a

/-- Offsets ctypes assigns to a list of `(size, alignment)` fields,
starting from offset `cur`, with packing `pack`. -/
def ctypesOffsets (pack : Nat) : Nat → List (Nat × Nat) → List Nat
  | _, [] => []
  | cur, (sz, al) :: rest =>
    let off := alignUp cur (min al pack)
    off :: ctypesOffsets pack (off + sz) rest

/-- End offset after laying out the fields. -/
def ctypesEnd (pack : Nat) : Nat → List (Nat × Nat) → Nat
  | cur, [] => cur
  | cur, (sz, al) :: rest => ctypesEnd pack (alignUp cur (min al pack) + sz) rest

/-- Maximum field alignment. -/
def maxAlignOf : List (Nat × Nat) → Nat
  | [] => 1
  | (_, al) :: rest => max al (maxAlignOf rest)

/-- The `ctypes.sizeof` of a structure with the given fields and packing. -/
def ctypesSizeof (pack : Nat) (fields : List (Nat × Nat)) : Nat :=
  alignUp (ctypesEnd pack 0 fields) (min (maxAlignOf fields) pack)

/-- Memory image of a structure: each field's encoded bytes placed at
its ctypes offset (offsets are increasing), with padding and trailing
bytes zero (the structure object is zero-initialized); `cur` is the
end of the previously placed field. -/
def layoutBytes (total : Nat) : Nat → List (Nat × List Nat) → List Nat
  | cur, [] => List.replicate (total - cur) 0
  | cur, (off, chunk) :: rest =>
    List.replicate (off - cur) 0 ++ chunk ++ layoutBytes total (off + chunk.length) rest

/-- Sizes and alignments of the declared fields of
`IconGroupDirectoryEntry`: four `c_char`, two `c_short`, one `c_int`,
one `c_short`.  The class sets `_pack_ = 2`. -/
def iconGroupDirectoryEntryFields : List (Nat × Nat) :=
  [(1, 1), (1, 1), (1, 1), (1, 1), (2, 2), (2, 2), (4, 4), (2, 2)]

/-- The `IconGroupDirectoryEntry` class of the source (GRPICONDIRENTRY): the
first six fields of a directory entry with the image offset replaced
by the assigned image id. -/
structure IconGroupDirectoryEntry where
  width : Nat
  height : Nat
  colors : Nat
  reserved : Nat
  planes : Nat
  bit_count : Nat
  image_size : Nat
  id : Nat
  deriving DecidableEq, Repr

/-- Encoded bytes of each field of an `IconGroupDirectoryEntry`, in
declaration order (`c_char` fields one byte, `c_short` two bytes
little-endian, `c_int` four bytes little-endian). -/
def groupEntryFieldBytes (e : IconGroupDirectoryEntry) : List (List Nat) :=
  [[e.width % 256], [e.height % 256], [e.colors % 256], [e.reserved % 256],
    bytes16 e.planes, bytes16 e.bit_count, bytes32 e.image_size, bytes16 e.id]

/-- The function `convertStructureToBytes` applied to an `IconGroupDirectoryEntry`:
the ctypes memory image of the structure under `_pack_ = 2`. -/
def convertStructureToBytes (e : IconGroupDirectoryEntry) : List Nat :=
  layoutBytes (ctypesSizeof 2 iconGroupDirectoryEntryFields) 0
    ((ctypesOffsets 2 0 iconGroupDirectoryEntryFields).zip (groupEntryFieldBytes e))

/-! ## ICO container parsing (`readFromFile` and the icon reading loop) -/

/-- The `IconDirectoryHeader` class of the source: three `c_short` fields,
read from the first 6 bytes of the ICO stream. -/
structure IconDirectoryHeader where
  reserved : Nat
  type : Nat
  count : Nat
  deriving DecidableEq, Repr

/-- The `IconDirectoryEntry` class of the source: 16 bytes at natural
alignment (offsets 0,1,2,3,4,6,8,12). -/
structure IconDirectoryEntry where
  width : Nat
  height : Nat
  colors : Nat
  reserved : Nat
  planes : Nat
  bit_count : Nat
  image_size : Nat
  image_offset : Nat
  deriving DecidableEq, Repr

/-- The call `readFromFile(icon_file, IconDirectoryHeader)` at stream offset 0. -/
def readIconDirectoryHeader (s : List Nat) : IconDirectoryHeader :=
  { reserved := le16 (byteAt s 0) (byteAt s 1)
    type := le16 (byteAt s 2) (byteAt s 3)
    count := le16 (byteAt s 4) (byteAt s 5) }

/-- The call `readFromFile(icon_file, IconDirectoryEntry)` at stream offset `pos`. -/
def readIconDirectoryEntry (s : List Nat) (pos : Nat) : IconDirectoryEntry :=
  { width := byteAt s pos
    height := byteAt s (pos + 1)
    colors := byteAt s (pos + 2)
    reserved := byteAt s (pos + 3)
    planes := le16 (byteAt s (pos + 4)) (byteAt s (pos + 5))
    bit_count := le16 (byteAt s (pos + 6)) (byteAt s (pos + 7))
    image_size := le32 (byteAt s (pos + 8)) (byteAt s (pos + 9))
      (byteAt s (pos + 10)) (byteAt s (pos + 11))
    image_offset := le32 (byteAt s (pos + 12)) (byteAt s (pos + 13))
      (byteAt s (pos + 14)) (byteAt s (pos + 15)) }

/-- The list comprehension reading `header.count` directory entries;
the entries follow the 6-byte header, 16 bytes each. -/
def readIconEntries (s : List Nat) (count : Nat) : List IconDirectoryEntry :=
  (List.range count).map fun i => readIconDirectoryEntry s (6 + 16 * i)

/-- The reads `icon_file.seek(icon.image_offset); icon_file.read(icon.image_size)`:
like Python's `read`, returns fewer bytes when the stream ends early. -/
def extractImage (s : List Nat) (e : IconDirectoryEntry) : List Nat :=
  (s.drop e.image_offset).take e.image_size

/-- The `sysexit` calls of the pipeline, by taxonomy; each carries the
data interpolated into the source's message. -/
inductive FatalError where
  | indexWithNonIco (path : String) (index : Nat)
  | missingImageio (path : String)
  | unsupportedImageFormat (path : String)
  | iconIndexOutOfRange (index : Nat) (path : String) (count : Nat)
  | missingBuildResult
  deriving DecidableEq, Repr

/-- The explicit single-index filter of `_addWindowsIconFromIcons`
(lines 170-177): `if icon_index > len(icons): sysexit(...)` else
`icons[:] = icons[icon_index : icon_index + 1]`. -/
def selectIcons (icons : List IconDirectoryEntry) (index : Option Nat)
    (path : String) : Except FatalError (List IconDirectoryEntry) :=
  match index with
  | none => Except.ok icons
  | some i =>
    if i > icons.length then
      Except.error (FatalError.iconIndexOutOfRange i path icons.length)
    else
      Except.ok ((icons.drop i).take 1)

/-- The loop building one `IconGroupDirectoryEntry` per selected icon,
copying the first six fields and assigning `id` from the running
`image_id` counter, which increments once per icon. -/
def groupEntriesFor : List IconDirectoryEntry → Nat → List IconGroupDirectoryEntry
  | [], _ => []
  | icon :: rest, imageId =>
    { width := icon.width
      height := icon.height
      colors := icon.colors
      reserved := icon.reserved
      planes := icon.planes
      bit_count := icon.bit_count
      image_size := icon.image_size
      id := imageId } :: groupEntriesFor rest (imageId + 1)

/-! ## Environment, events and the icon pipeline

`_addWindowsIconFromIcons` interleaves file I/O, logging and resource
writes; the embedding records these as an ordered list of events, and
a `sysexit` as a `FatalError` terminating the run. -/

/-- Resource type constants.  Modelled from the spec: the constants
are imported from `nuitka.utils.WindowsResources`, which is not under
`src/`; the spec's `ResourceRecord` model only requires the kinds to
be distinct.  The values are the standard Windows resource-type
identifiers. -/
def RT_ICON : Nat := 3

/-- See `RT_ICON`. -/
def RT_GROUP_ICON : Nat := 14

/-- See `RT_ICON`. -/
def RT_RCDATA : Nat := 10

/-- Payload of a written resource.  A group-icon resource's byte
payload is `convertStructureToBytes header ++ join (map
convertStructureToBytes entries)`; it is kept structured here so the
assigned ids stay observable. -/
inductive ResourceData where
  | groupIcon (header : IconDirectoryHeader) (entries : List IconGroupDirectoryEntry)
  | rawBytes (bytes : List Nat)
  deriving DecidableEq, Repr

/-- Warnings logged by `executePostProcessingResources` (the source
logs via `postprocessing_logger.warning` in both template branches). -/
inductive WarningKind where
  | templateZero (path : String)
  | templateCopied (count : Nat) (path : String)
  deriving DecidableEq, Repr

/-- Observable actions of the pipeline, in execution order.  `info`
stands for a `postprocessing_logger.info` call (message text is out of
scope per the spec); `openFile` is the `open(icon_path, "rb")` of an
icon file; `imreadFile` is the file-reading `imageio.imread` call;
`readImage` is one image-byte read inside an open icon file. -/
inductive Event where
  | info
  | openFile (path : String)
  | imreadFile (path : String)
  | makeIconDir
  | imwriteFile (path : String)
  | readImage (offset : Nat) (size : Nat)
  | addResource (kind : Nat) (nameOrId : Nat) (languageId : Nat) (data : ResourceData)
  | embedManifest (uacAdmin : Bool) (uacUiAccess : Bool)
  | addVersionInfo
  | copyResources (templatePath : String) (count : Nat)
  | warning (w : WarningKind)
  deriving DecidableEq, Repr

/-- One icon specification from `Options.getIconPaths()`, already
split at the trailing `#`: the path, the optional explicit index, and
the bytes of the file found at the path. -/
structure IconSpec where
  path : String
  index : Option Nat
  content : List Nat
  deriving DecidableEq, Repr

/-- External collaborators of the pipeline.  Modelled from the spec:
`imread`/`imwriteIco` are the external raster library (`none` is the
`ValueError` of an unsupported format; `imwriteIco` gives the bytes of
the ICO file the conversion writes); `copyResourcesCount` is the count
returned by `copyResourcesFromFileToFile`, whose implementation is not
under `src/`. -/
structure PipelineEnv where
  imageio_available : Bool
  imread : String → Option Nat
  imwriteIco : Nat → List Nat
  copyResourcesCount : String → Nat

def suffixIco : String := ".ico"

def iconPathStem : String := "icons/icon-"

/-- Python's `os.path.normcase` lowercases on Windows (it also flips path
separators, which cannot affect a `";.ico"` suffix test). -/
def toLowerStr (p : String) : String := String.mk (p.data.map Char.toLower)

/-- The test `os.path.normcase(icon_path).endswith(".ico")`. -/
def isIcoPath (p : String) : Bool := List.isSuffixOf suffixIco.data (toLowerStr p).data

/-- The path `os.path.join(..., "icons", "icon-%d.ico" % image_id)`, with the
build directory prefix elided (it does not affect any claim). -/
def convertedIconPath (imageId : Nat) : String :=
  iconPathStem ++ Nat.repr imageId ++ suffixIco

/-- Result of processing one icon specification: the events it
performed, the image byte blocks it collected, the number of selected
icons (= the increment of the `image_id` counter), and the `sysexit`
if one occurred. -/
structure SpecResult where
  events : List Event
  images : List (List Nat)
  selectedCount : Nat
  error : Option FatalError

/-- Lines 162-215 of the source: open the (possibly converted) icon
file, read header and entries, apply the index filter, log, read the
image bytes, and add one `RT_GROUP_ICON` resource whose entries carry
ids `imageId, imageId+1, ...`.  The resource name is the source's
`icon_group` variable, which is initialized to 1 and never updated. -/
def readIcoAndBuild (imageId : Nat) (path : String) (content : List Nat)
    (index : Option Nat) : SpecResult :=
  let header := readIconDirectoryHeader content
  let icons := readIconEntries content header.count
  match selectIcons icons index path with
  | Except.error e =>
    { events := [Event.openFile path], images := [], selectedCount := 0, error := some e }
  | Except.ok selected =>
    { events := [Event.openFile path, Event.info]
        ++ selected.map (fun i => Event.readImage i.image_offset i.image_size)
        ++ [Event.addResource RT_GROUP_ICON 1 0
              (ResourceData.groupIcon header (groupEntriesFor selected imageId))]
      images := selected.map (extractImage content)
      selectedCount := selected.length
      error := none }

/-- Lines 112-215 of the source, one iteration of the icon-spec loop:
the non-ICO conversion fallback (lines 122-160) followed by
`readIcoAndBuild`. -/
def processSpec (env : PipelineEnv) (imageId : Nat) (s : IconSpec) : SpecResult :=
  if isIcoPath s.path then
    readIcoAndBuild imageId s.path s.content s.index
  else
    match s.index with
    | some i =>
      { events := [Event.info], images := [], selectedCount := 0
        error := some (FatalError.indexWithNonIco s.path i) }
    | none =>
      if env.imageio_available then
        match env.imread s.path with
        | none =>
          { events := [Event.info, Event.imreadFile s.path], images := []
            selectedCount := 0, error := some (FatalError.unsupportedImageFormat s.path) }
        | some img =>
          let converted := convertedIconPath imageId
          let r := readIcoAndBuild imageId converted (env.imwriteIco img) s.index
          { r with events := [Event.info, Event.imreadFile s.path, Event.makeIconDir,
              Event.imwriteFile converted] ++ r.events }
      else
        { events := [Event.info], images := [], selectedCount := 0
          error := some (FatalError.missingImageio s.path) }

/-- Accumulated result of the icon-spec loop. -/
structure RunResult where
  events : List Event
  images : List (List Nat)
  nextImageId : Nat
  error : Option FatalError

/-- The `for icon_spec in Options.getIconPaths()` loop; a `sysexit`
terminates the process, so processing stops at the first error. -/
def runSpecs (env : PipelineEnv) (imageId : Nat) : List IconSpec → RunResult
  | [] => { events := [], images := [], nextImageId := imageId, error := none }
  | s :: rest =>
    let r := processSpec env imageId s
    match r.error with
    | some e =>
      { events := r.events, images := r.images
        nextImageId := imageId + r.selectedCount, error := some e }
    | none =>
      let rr := runSpecs env (imageId + r.selectedCount) rest
      { events := r.events ++ rr.events, images := r.images ++ rr.images
        nextImageId := rr.nextImageId, error := rr.error }

/-- Lines 217-225: `for count, image in enumerate(images, 1)` adds one
`RT_ICON` resource per collected image, named by the enumeration
counter starting at 1. -/
def iconImageEvents (count : Nat) : List (List Nat) → List Event
  | [] => []
  | img :: rest =>
    Event.addResource RT_ICON count 0 (ResourceData.rawBytes img)
      :: iconImageEvents (count + 1) rest

/-- The function `_addWindowsIconFromIcons`: both local counters (`icon_group`,
`image_id`) start afresh at every invocation (`image_id` at 1). -/
def addWindowsIconFromIcons (env : PipelineEnv) (specs : List IconSpec) :
    List Event × Option FatalError :=
  let r := runSpecs env 1 specs
  match r.error with
  | some e => (r.events, some e)
  | none => (r.events ++ iconImageEvents 1 r.images, none)

/-! ## The orchestrator (`executePostProcessingResources`, `executePostProcessing`) -/

/-- The manifest builder.  Modelled from the spec: the manifest class
lives in `nuitka.utils.WindowsResources` (not under `src/`); per the
spec it is mutable only through the two monotonic privilege flags. -/
structure Manifest where
  uacAdmin : Bool
  uacUiAccess : Bool
  deriving DecidableEq, Repr

/-- Lines 239-250 of the source: when admin or UI-access rights are
requested, a `None` manifest is replaced by the default one and the
requested flags are set on it. -/
def resolveManifest (m : Option Manifest) (admin ui : Bool) : Option Manifest :=
  if admin || ui then
    let base := m.getD { uacAdmin := false, uacUiAccess := false }
    some { uacAdmin := base.uacAdmin || admin, uacUiAccess := base.uacUiAccess || ui }
  else m

/-- Configuration consumed by `executePostProcessingResources`,
already validated by the excluded options layer.
`versionInfoPresent` is the disjunction of lines 255-259 (version-info
strings, product version or file version given); `splashScreen` holds
the splash file's bytes when a splash path is configured. -/
structure ResourceOptions where
  askAdminRights : Bool
  askUiAccessRights : Bool
  versionInfoPresent : Bool
  templateExe : Option String
  splashScreen : Option (List Nat)
  iconSpecs : List IconSpec

/-- Line 252-253: embed the manifest when one is present. -/
def manifestEvents (m : Option Manifest) : List Event :=
  match m with
  | some mf => [Event.embedManifest mf.uacAdmin mf.uacUiAccess]
  | none => []

/-- Lines 255-270: the version-info resource. -/
def versionEvents (present : Bool) : List Event :=
  if present then [Event.addVersionInfo] else []

/-- Lines 272-289: copy icon resources from the template executable;
both branches log a `warning`, a zero count is only a warning. -/
def templateEvents (env : PipelineEnv) (t : String) : List Event :=
  let n := env.copyResourcesCount t
  [Event.copyResources t n]
    ++ (if n = 0 then [Event.warning (WarningKind.templateZero t)]
        else [Event.warning (WarningKind.templateCopied n t)])

/-- Lines 293-304: the splash screen blob at `res_name=27`. -/
def splashEvents (s : Option (List Nat)) : List Event :=
  match s with
  | some d => [Event.addResource RT_RCDATA 27 0 (ResourceData.rawBytes d)]
  | none => []

/-- The function `executePostProcessingResources(manifest, onefile)`: manifest,
version info, icons (from the template executable when one is
configured, otherwise built from the icon files), then the splash
screen.  A `sysexit` inside the icon step terminates the process, so
the splash step is skipped in that case. -/
def executePostProcessingResources (env : PipelineEnv) (opts : ResourceOptions)
    (manifest0 : Option Manifest) : List Event × Option FatalError :=
  let m := resolveManifest manifest0 opts.askAdminRights opts.askUiAccessRights
  let pre := manifestEvents m ++ versionEvents opts.versionInfoPresent
  match opts.templateExe with
  | some t => (pre ++ templateEvents env t ++ splashEvents opts.splashScreen, none)
  | none =>
    let r := addWindowsIconFromIcons env opts.iconSpecs
    match r.2 with
    | some e => (pre ++ r.1, some e)
    | none => (pre ++ r.1 ++ splashEvents opts.splashScreen, none)

/-- Configuration consumed by `executePostProcessing`.
`cpythonManifest` is the manifest read from `sys.executable` for
Python versions below 3.0 (line 326). -/
structure PostOptions where
  resultFileExists : Bool
  isWin32 : Bool
  shallMakeModule : Bool
  pythonVersionBelow300 : Bool
  cpythonManifest : Manifest
  resOpts : ResourceOptions
  constantBlob : List Nat

/-- The function `executePostProcessing` (lines 307-342), restricted to its resource
effects: the missing-output check, the Win32 resource embedding for
non-module builds, and the constant blob at `res_name=3` for every
Win32 build.  The macOS load-path patch, the permission fix, the
import-library removal and the uninstalled-Python wrapper script write
no resources and are outside every claim. -/
def executePostProcessing (env : PipelineEnv) (p : PostOptions) :
    List Event × Option FatalError :=
  if p.resultFileExists then
    if p.isWin32 then
      let blob := [Event.addResource RT_RCDATA 3 0 (ResourceData.rawBytes p.constantBlob)]
      if p.shallMakeModule then (blob, none)
      else
        let manifest0 := if p.pythonVersionBelow300 then some p.cpythonManifest else none
        let r := executePostProcessingResources env p.resOpts manifest0
        match r.2 with
        | some e => (r.1, some e)
        | none => (r.1 ++ blob, none)
    else ([], none)
  else ([], some FatalError.missingBuildResult)

/-! ## Observation functions over event traces -/

/-- The list `s, s+1, ..., s+n-1`. -/
def natRange : Nat → Nat → List Nat
  | _, 0 => []
  | s, n + 1 => s :: natRange (s + 1) n

/-- The image ids carried by each written group-icon resource, one
list per resource, in write order. -/
def groupEntryIdLists (evts : List Event) : List (List Nat) :=
  evts.filterMap fun e =>
    match e with
    | Event.addResource _ _ _ (ResourceData.groupIcon _ entries) =>
      some (entries.map IconGroupDirectoryEntry.id)
    | _ => none

/-- All image ids assigned to group-icon entries, in write order. -/
def groupEntryIds (evts : List Event) : List Nat := (groupEntryIdLists evts).flatten

/-- Shape invariant of the events of `_addWindowsIconFromIcons`: only
icon-step actions occur, and every resource it writes is an
`RT_GROUP_ICON` or `RT_ICON` resource at language id 0. -/
def eventOK : Event → Prop
  | Event.addResource k _ l _ => l = 0 ∧ (k = RT_GROUP_ICON ∨ k = RT_ICON)
  | Event.embedManifest _ _ => False
  | Event.addVersionInfo => False
  | Event.copyResources _ _ => False
  | Event.warning _ => False
  | _ => True

/-- Position of an event in the fixed step order of the spec:
manifest (0), version info (1), icon resources (2, including the
template copy), raw-data blobs (3).  Events that are not resource
embedding steps rank `none`. -/
def stepRank : Event → Option Nat
  | Event.embedManifest _ _ => some 0
  | Event.addVersionInfo => some 1
  | Event.copyResources _ _ => some 2
  | Event.addResource k _ _ _ => some (if k = RT_RCDATA then 3 else 2)
  | _ => none

/-- The ranked steps of a trace, in execution order. -/
def ranksOf (l : List Event) : List Nat := l.filterMap stepRank

/-- The ranked steps of the trace are in nondecreasing order and lie
between `lo` and `hi`. -/
def SortedBetween (l : List Event) (lo hi : Nat) : Prop :=
  List.Pairwise (fun a b => a ≤ b) (ranksOf l) ∧ ∀ a ∈ ranksOf l, lo ≤ a ∧ a ≤ hi

/-- The fixed identity discipline of written resources: language id 0
always, and a raw-data resource is either the splash screen at the
reserved id 27 or the constant blob at the reserved id 3. -/
def resourceTripleOK (p : PostOptions) (k n l : Nat) (d : ResourceData) : Prop :=
  l = 0 ∧ (k = RT_RCDATA →
    (n = 27 ∧ ∃ s, p.resOpts.splashScreen = some s ∧ d = ResourceData.rawBytes s)
    ∨ (n = 3 ∧ d = ResourceData.rawBytes p.constantBlob))

/-! ## Concrete sample data for witnesses and counterexamples -/

/-- A well-formed ICO stream: header `{reserved=0, type=1, count=2}`,
two 16-byte entries (image sizes 2 and 3 at offsets 38 and 40), then
the 5 image bytes. -/
def sampleIco2 : List Nat :=
  [0, 0, 1, 0, 2, 0]
    ++ [16, 16, 0, 0, 1, 0, 32, 0, 2, 0, 0, 0, 38, 0, 0, 0]
    ++ [32, 32, 0, 0, 1, 0, 32, 0, 3, 0, 0, 0, 40, 0, 0, 0]
    ++ [9, 9, 7, 7, 7]

/-- A well-formed ICO stream with three entries (image sizes 1,1,1 at
offsets 54,55,56). -/
def sampleIco3 : List Nat :=
  [0, 0, 1, 0, 3, 0]
    ++ [8, 8, 0, 0, 1, 0, 32, 0, 1, 0, 0, 0, 54, 0, 0, 0]
    ++ [16, 16, 0, 0, 1, 0, 32, 0, 1, 0, 0, 0, 55, 0, 0, 0]
    ++ [32, 32, 0, 0, 1, 0, 32, 0, 1, 0, 0, 0, 56, 0, 0, 0]
    ++ [1, 2, 3]

/-- An ICO stream whose header type field is 2 instead of 1: one
entry of image size 1 at offset 22. -/
def sampleIcoBadType : List Nat :=
  [0, 0, 2, 0, 1, 0]
    ++ [1, 1, 0, 0, 1, 0, 32, 0, 1, 0, 0, 0, 22, 0, 0, 0]
    ++ [9]

def pathA : String := "a.ico"

def pathB : String := "b.ico"

def pngPath : String := "logo.png"

def templatePath : String := "template.exe"

/-- Environment with no external raster library and an empty template. -/
def envNone : PipelineEnv :=
  { imageio_available := false
    imread := fun _ => none
    imwriteIco := fun _ => []
    copyResourcesCount := fun _ => 0 }

def specA : IconSpec := { path := pathA, index := none, content := sampleIco2 }

def specB : IconSpec := { path := pathB, index := none, content := sampleIco3 }

def specBadType : IconSpec := { path := pathA, index := none, content := sampleIcoBadType }

/-- Sample `specA` with the explicit index filter 2 (equal to the entry count). -/
def specAIdx2 : IconSpec := { path := pathA, index := some 2, content := sampleIco2 }

/-- A non-ICO source with an explicit index filter. -/
def specPngIdx : IconSpec := { path := pngPath, index := some 0, content := [] }

def optsTemplate : ResourceOptions :=
  { askAdminRights := false, askUiAccessRights := false, versionInfoPresent := false
    templateExe := some templatePath, splashScreen := none, iconSpecs := [] }

def optsIcons : ResourceOptions :=
  { askAdminRights := true, askUiAccessRights := false, versionInfoPresent := true
    templateExe := none, splashScreen := some [5, 5], iconSpecs := [specA] }

def postModule : PostOptions :=
  { resultFileExists := true, isWin32 := true, shallMakeModule := true
    pythonVersionBelow300 := false, cpythonManifest := { uacAdmin := false, uacUiAccess := false }
    resOpts := optsIcons, constantBlob := [1, 2] }

/-! ## Lemmas: the running image-id counter -/

theorem natRange_length (n : Nat) : ∀ s, (natRange s n).length = n := by
  induction n with
  | zero => intro s; rfl
  | succ m ih => intro s; simp [natRange, ih]

theorem natRange_append (m : Nat) :
    ∀ s n, natRange s m ++ natRange (s + m) n = natRange s (m + n) := by
  induction m with
  | zero => intro s n; simp [natRange]
  | succ k ih =>
    intro s n
    have h1 : s + (k + 1) = (s + 1) + k := by omega
    have h2 : k + 1 + n = (k + n) + 1 := by omega
    simp only [natRange, h1, h2, List.cons_append, ih (s + 1) n]

theorem groupEntriesFor_ids (icons : List IconDirectoryEntry) :
    ∀ n, (groupEntriesFor icons n).map IconGroupDirectoryEntry.id =
      natRange n icons.length := by
  induction icons with
  | nil => intro n; rfl
  | cons i rest ih => intro n; simp [groupEntriesFor, natRange, ih]

theorem groupEntryIdLists_append (a b : List Event) :
    groupEntryIdLists (a ++ b) = groupEntryIdLists a ++ groupEntryIdLists b := by
  simp [groupEntryIdLists, List.filterMap_append]

theorem groupEntryIds_append (a b : List Event) :
    groupEntryIds (a ++ b) = groupEntryIds a ++ groupEntryIds b := by
  simp [groupEntryIds, groupEntryIdLists_append]

theorem groupEntryIdLists_readImages (selected : List IconDirectoryEntry) :
    groupEntryIdLists
      (selected.map fun i => Event.readImage i.image_offset i.image_size) = [] := by
  induction selected with
  | nil => rfl
  | cons i rest ih => simp [groupEntryIdLists]

theorem readIcoAndBuild_ids (n : Nat) (path : String) (content : List Nat)
    (index : Option Nat) :
    groupEntryIds (readIcoAndBuild n path content index).events =
      natRange n (readIcoAndBuild n path content index).selectedCount := by
  unfold readIcoAndBuild
  rcases h : selectIcons (readIconEntries content (readIconDirectoryHeader content).count)
      index path with e | selected
  · simp [h, groupEntryIds, groupEntryIdLists, natRange]
  · simp [h, groupEntryIds, groupEntryIdLists_append, groupEntryIdLists_readImages,
      groupEntryIdLists, groupEntriesFor_ids]

theorem processSpec_ids (env : PipelineEnv) (n : Nat) (s : IconSpec) :
    groupEntryIds (processSpec env n s).events =
      natRange n (processSpec env n s).selectedCount := by
  unfold processSpec
  by_cases hico : isIcoPath s.path
  · simp [hico, readIcoAndBuild_ids]
  · rcases hidx : s.index with _ | i
    · by_cases havail : env.imageio_available
      · rcases hread : env.imread s.path with _ | img
        · simp [hico, hidx, havail, hread, groupEntryIds, groupEntryIdLists, natRange]
        · simp only [hico, hidx, havail, hread, Bool.false_eq_true, if_false, if_true,
            reduceCtorEq]
          rw [groupEntryIds_append, readIcoAndBuild_ids]
          simp [groupEntryIds, groupEntryIdLists]
      · simp [hico, hidx, havail, groupEntryIds, groupEntryIdLists, natRange]
    · simp [hico, hidx, groupEntryIds, groupEntryIdLists, natRange]

theorem runSpecs_ids (env : PipelineEnv) :
    ∀ (specs : List IconSpec) (n : Nat), ∃ k,
      (runSpecs env n specs).nextImageId = n + k ∧
      groupEntryIds (runSpecs env n specs).events = natRange n k := by
  intro specs
  induction specs with
  | nil => intro n; exact ⟨0, rfl, rfl⟩
  | cons s rest ih =>
    intro n
    unfold runSpecs
    rcases herr : (processSpec env n s).error with _ | e
    · obtain ⟨k, hk1, hk2⟩ := ih (n + (processSpec env n s).selectedCount)
      refine ⟨(processSpec env n s).selectedCount + k, ?_, ?_⟩
      · simp only [herr]
        simp [hk1]
        omega
      · simp only [herr]
        simp [groupEntryIds_append, hk2, processSpec_ids,
          natRange_append (processSpec env n s).selectedCount n k]
    · refine ⟨(processSpec env n s).selectedCount, ?_, ?_⟩
      · simp [herr]
      · simp only [herr]
        simp [processSpec_ids]

theorem groupEntryIdLists_iconImageEvents (imgs : List (List Nat)) :
    ∀ c, groupEntryIdLists (iconImageEvents c imgs) = [] := by
  induction imgs with
  | nil => intro c; rfl
  | cons i rest ih =>
    intro c
    simp [iconImageEvents, groupEntryIdLists] at ih ⊢
    exact ih (c + 1)

theorem addIcons_ids (env : PipelineEnv) (specs : List IconSpec) :
    ∃ k, groupEntryIds (addWindowsIconFromIcons env specs).1 = natRange 1 k := by
  unfold addWindowsIconFromIcons
  obtain ⟨k, hk1, hk2⟩ := runSpecs_ids env specs 1
  rcases herr : (runSpecs env 1 specs).error with _ | e
  · refine ⟨k, ?_⟩
    simp only [herr]
    have h0 : groupEntryIds (iconImageEvents 1 (runSpecs env 1 specs).images) = [] := by
      simp [groupEntryIds, groupEntryIdLists_iconImageEvents]
    rw [groupEntryIds_append, hk2, h0, List.append_nil]
  · refine ⟨k, ?_⟩
    simp only [herr]
    simp [hk2]

/-! ## Lemmas: the shape of the icon-step trace -/

theorem readIcoAndBuild_eventOK (n : Nat) (path : String) (content : List Nat)
    (index : Option Nat) :
    ∀ e ∈ (readIcoAndBuild n path content index).events, eventOK e := by
  unfold readIcoAndBuild
  rcases h : selectIcons (readIconEntries content (readIconDirectoryHeader content).count)
      index path with e0 | selected
  · intro e he
    simp [h] at he
    simp [he, eventOK]
  · intro e he
    simp [h, List.mem_append, List.mem_map] at he
    rcases he with he | he | ⟨i, _, he⟩ | he <;> subst he <;>
      simp [eventOK, RT_GROUP_ICON, RT_ICON]

theorem processSpec_eventOK (env : PipelineEnv) (n : Nat) (s : IconSpec) :
    ∀ e ∈ (processSpec env n s).events, eventOK e := by
  unfold processSpec
  by_cases hico : isIcoPath s.path
  · simp only [hico, if_true]
    exact readIcoAndBuild_eventOK n s.path s.content s.index
  · rcases hidx : s.index with _ | i
    · by_cases havail : env.imageio_available
      · rcases hread : env.imread s.path with _ | img
        · intro e he
          simp [hico, hidx, havail, hread] at he
          rcases he with he | he <;> subst he <;> simp [eventOK]
        · intro e he
          simp only [hico, hidx, havail, hread, Bool.false_eq_true, if_false, if_true] at he
          simp [List.mem_append] at he
          rcases he with he | he | he | he | he
          · subst he; simp [eventOK]
          · subst he; simp [eventOK]
          · subst he; simp [eventOK]
          · subst he; simp [eventOK]
          · exact readIcoAndBuild_eventOK n (convertedIconPath n) (env.imwriteIco img) none e he
      · intro e he
        simp [hico, hidx, havail] at he
        simp [he, eventOK]
    · intro e he
      simp [hico, hidx] at he
      simp [he, eventOK]

theorem runSpecs_eventOK (env : PipelineEnv) :
    ∀ (specs : List IconSpec) (n : Nat), ∀ e ∈ (runSpecs env n specs).events, eventOK e := by
  intro specs
  induction specs with
  | nil => intro n e he; simp [runSpecs] at he
  | cons s rest ih =>
    intro n e he
    unfold runSpecs at he
    rcases herr : (processSpec env n s).error with _ | e0 <;> simp only [herr] at he
    · simp [List.mem_append] at he
      rcases he with he | he
      · exact processSpec_eventOK env n s e he
      · exact ih (n + (processSpec env n s).selectedCount) e he
    · exact processSpec_eventOK env n s e he

theorem iconImageEvents_eventOK (imgs : List (List Nat)) :
    ∀ c, ∀ e ∈ iconImageEvents c imgs, eventOK e := by
  induction imgs with
  | nil => intro c e he; simp [iconImageEvents] at he
  | cons i rest ih =>
    intro c e he
    simp [iconImageEvents] at he
    rcases he with he | he
    · subst he; simp [eventOK, RT_ICON, RT_GROUP_ICON]
    · exact ih (c + 1) e he

theorem addIcons_eventOK (env : PipelineEnv) (specs : List IconSpec) :
    ∀ e ∈ (addWindowsIconFromIcons env specs).1, eventOK e := by
  unfold addWindowsIconFromIcons
  rcases herr : (runSpecs env 1 specs).error with _ | e0 <;> simp only [herr] <;> intro e he
  · simp [List.mem_append] at he
    rcases he with he | he
    · exact runSpecs_eventOK env specs 1 e he
    · exact iconImageEvents_eventOK (runSpecs env 1 specs).images 1 e he
  · exact runSpecs_eventOK env specs 1 e he

/-! ## Lemmas: step ranks and ordering -/

theorem eventOK_rank {e : Event} (h : eventOK e) :
    stepRank e = none ∨ stepRank e = some 2 := by
  cases e <;> simp [eventOK, stepRank] at h ⊢
  case addResource k nm l d =>
    rcases h.2 with rfl | rfl <;> simp [RT_GROUP_ICON, RT_ICON, RT_RCDATA]

theorem ranksOf_append (a b : List Event) : ranksOf (a ++ b) = ranksOf a ++ ranksOf b := by
  simp [ranksOf, List.filterMap_append]

theorem sortedBetween_append {l1 l2 : List Event} {lo m hi : Nat}
    (h1 : SortedBetween l1 lo m) (h2 : SortedBetween l2 m hi)
    (hlm : lo ≤ m) (hmh : m ≤ hi) : SortedBetween (l1 ++ l2) lo hi := by
  obtain ⟨p1, b1⟩ := h1
  obtain ⟨p2, b2⟩ := h2
  constructor
  · rw [ranksOf_append]
    exact List.pairwise_append.mpr
      ⟨p1, p2, fun a ha b hb => le_trans (b1 a ha).2 (b2 b hb).1⟩
  · rw [ranksOf_append]
    intro a ha
    rcases List.mem_append.mp ha with h | h
    · exact ⟨(b1 a h).1, le_trans (b1 a h).2 hmh⟩
    · exact ⟨le_trans hlm (b2 a h).1, (b2 a h).2⟩

theorem sortedBetween_weaken {l : List Event} {lo hi lo2 hi2 : Nat}
    (h : SortedBetween l lo hi) (h1 : lo2 ≤ lo) (h2 : hi ≤ hi2) :
    SortedBetween l lo2 hi2 := by
  obtain ⟨p, b⟩ := h
  exact ⟨p, fun a ha => ⟨le_trans h1 (b a ha).1, le_trans (b a ha).2 h2⟩⟩

theorem sortedBetween_of_const {l : List Event} (r : Nat)
    (h : ∀ e ∈ l, stepRank e = none ∨ stepRank e = some r) : SortedBetween l r r := by
  have hall : ∀ a ∈ ranksOf l, a = r := by
    intro a ha
    obtain ⟨e, he, hfe⟩ := List.mem_filterMap.mp ha
    rcases h e he with h0 | h0 <;> rw [h0] at hfe
    · exact absurd hfe (by simp)
    · exact (Option.some_inj.mp hfe).symm
  constructor
  · exact List.pairwise_of_forall_mem_list fun a ha b hb => by
      rw [hall a ha, hall b hb]
  · intro a ha
    rw [hall a ha]
    exact ⟨le_refl r, le_refl r⟩

theorem manifestEvents_sorted (m : Option Manifest) :
    SortedBetween (manifestEvents m) 0 0 := by
  apply sortedBetween_of_const
  intro e he
  cases m <;> simp [manifestEvents] at he
  simp [he, stepRank]

theorem versionEvents_sorted (b : Bool) : SortedBetween (versionEvents b) 1 1 := by
  apply sortedBetween_of_const
  intro e he
  cases b <;> simp [versionEvents] at he
  simp [he, stepRank]

theorem templateEvents_sorted (env : PipelineEnv) (t : String) :
    SortedBetween (templateEvents env t) 2 2 := by
  apply sortedBetween_of_const
  intro e he
  by_cases hn : env.copyResourcesCount t = 0 <;>
    simp [templateEvents, hn] at he <;>
    rcases he with he | he <;> simp [he, stepRank]

theorem splashEvents_sorted (s : Option (List Nat)) :
    SortedBetween (splashEvents s) 3 3 := by
  apply sortedBetween_of_const
  intro e he
  cases s <;> simp [splashEvents] at he
  simp [he, stepRank, RT_RCDATA]

theorem addIcons_sorted (env : PipelineEnv) (specs : List IconSpec) :
    SortedBetween (addWindowsIconFromIcons env specs).1 2 2 :=
  sortedBetween_of_const 2 fun e he => eventOK_rank (addIcons_eventOK env specs e he)

/-! ## Lemmas: the orchestrator trace -/

theorem mem_manifestEvents_addResource {m : Option Manifest} {k n l : Nat}
    {d : ResourceData} (h : Event.addResource k n l d ∈ manifestEvents m) : False := by
  cases m <;> simp [manifestEvents] at h

theorem mem_versionEvents_addResource {b : Bool} {k n l : Nat} {d : ResourceData}
    (h : Event.addResource k n l d ∈ versionEvents b) : False := by
  cases b <;> simp [versionEvents] at h

theorem mem_templateEvents_addResource {env : PipelineEnv} {t : String} {k n l : Nat}
    {d : ResourceData} (h : Event.addResource k n l d ∈ templateEvents env t) : False := by
  by_cases hn : env.copyResourcesCount t = 0 <;> simp [templateEvents, hn] at h

theorem mem_splashEvents_addResource {s : Option (List Nat)} {k n l : Nat}
    {d : ResourceData} (h : Event.addResource k n l d ∈ splashEvents s) :
    ∃ dd, s = some dd ∧ k = RT_RCDATA ∧ n = 27 ∧ l = 0 ∧ d = ResourceData.rawBytes dd := by
  cases s with
  | none => simp [splashEvents] at h
  | some dd =>
    simp [splashEvents] at h
    obtain ⟨hk, hn, hl, hd⟩ := h
    exact ⟨dd, rfl, hk, hn, hl, hd⟩

theorem mem_templateEvents_openFile {env : PipelineEnv} {t : String} {q : String}
    (h : Event.openFile q ∈ templateEvents env t) : False := by
  by_cases hn : env.copyResourcesCount t = 0 <;> simp [templateEvents, hn] at h

theorem mem_manifestEvents_openFile {m : Option Manifest} {q : String}
    (h : Event.openFile q ∈ manifestEvents m) : False := by
  cases m <;> simp [manifestEvents] at h

theorem mem_versionEvents_openFile {b : Bool} {q : String}
    (h : Event.openFile q ∈ versionEvents b) : False := by
  cases b <;> simp [versionEvents] at h

theorem mem_splashEvents_openFile {s : Option (List Nat)} {q : String}
    (h : Event.openFile q ∈ splashEvents s) : False := by
  cases s <;> simp [splashEvents] at h

theorem resources_sorted (env : PipelineEnv) (opts : ResourceOptions)
    (m0 : Option Manifest) :
    SortedBetween (executePostProcessingResources env opts m0).1 0 3 := by
  have hpre : SortedBetween
      (manifestEvents (resolveManifest m0 opts.askAdminRights opts.askUiAccessRights)
        ++ versionEvents opts.versionInfoPresent) 0 2 := by
    have hm : SortedBetween (manifestEvents
        (resolveManifest m0 opts.askAdminRights opts.askUiAccessRights)) 0 1 :=
      sortedBetween_weaken (manifestEvents_sorted _) (by omega) (by omega)
    have hv : SortedBetween (versionEvents opts.versionInfoPresent) 1 2 :=
      sortedBetween_weaken (versionEvents_sorted _) (by omega) (by omega)
    exact sortedBetween_append hm hv (by omega) (by omega)
  have hicons : SortedBetween (addWindowsIconFromIcons env opts.iconSpecs).1 2 3 :=
    sortedBetween_weaken (addIcons_sorted env opts.iconSpecs) (by omega) (by omega)
  have hsplash : SortedBetween (splashEvents opts.splashScreen) 3 3 :=
    splashEvents_sorted _
  have htmpl : ∀ t, SortedBetween (templateEvents env t) 2 3 := fun t =>
    sortedBetween_weaken (templateEvents_sorted env t) (by omega) (by omega)
  unfold executePostProcessingResources
  rcases ht : opts.templateExe with _ | t <;> simp only [ht]
  · rcases herr : (addWindowsIconFromIcons env opts.iconSpecs).2 with _ | e0 <;>
      simp only [herr]
    · exact sortedBetween_append (sortedBetween_append hpre hicons (by omega) (by omega))
        hsplash (by omega) (by omega)
    · exact sortedBetween_weaken
        (sortedBetween_append hpre hicons (by omega) (by omega)) (by omega) (by omega)
  · exact sortedBetween_append (sortedBetween_append hpre (htmpl t) (by omega) (by omega))
      hsplash (by omega) (by omega)

theorem resources_tripleOK (env : PipelineEnv) (p : PostOptions) (m0 : Option Manifest)
    (k n l : Nat) (d : ResourceData)
    (hmem : Event.addResource k n l d ∈ (executePostProcessingResources env p.resOpts m0).1) :
    resourceTripleOK p k n l d := by
  unfold executePostProcessingResources at hmem
  rcases ht : p.resOpts.templateExe with _ | t <;> simp only [ht] at hmem
  · rcases herr : (addWindowsIconFromIcons env p.resOpts.iconSpecs).2 with _ | e0 <;>
      simp only [herr] at hmem
    · rcases List.mem_append.mp hmem with h | h
      · rcases List.mem_append.mp h with h2 | h2
        · rcases List.mem_append.mp h2 with h3 | h3
          · exact absurd h3 (fun hc => mem_manifestEvents_addResource hc)
          · exact absurd h3 (fun hc => mem_versionEvents_addResource hc)
        · have hok := addIcons_eventOK env p.resOpts.iconSpecs _ h2
          obtain ⟨hl, hk⟩ := hok
          refine ⟨hl, fun hrc => ?_⟩
          rcases hk with h4 | h4 <;> rw [h4] at hrc <;> exact absurd hrc (by decide)
      · obtain ⟨dd, hs, hk, hn, hl, hd⟩ := mem_splashEvents_addResource h
        exact ⟨hl, fun _ => Or.inl ⟨hn, dd, hs, hd⟩⟩
    · rcases List.mem_append.mp hmem with h | h
      · rcases List.mem_append.mp h with h3 | h3
        · exact absurd h3 (fun hc => mem_manifestEvents_addResource hc)
        · exact absurd h3 (fun hc => mem_versionEvents_addResource hc)
      · have hok := addIcons_eventOK env p.resOpts.iconSpecs _ h
        obtain ⟨hl, hk⟩ := hok
        refine ⟨hl, fun hrc => ?_⟩
        rcases hk with h4 | h4 <;> rw [h4] at hrc <;> exact absurd hrc (by decide)
  · rcases List.mem_append.mp hmem with h | h
    · rcases List.mem_append.mp h with h2 | h2
      · rcases List.mem_append.mp h2 with h3 | h3
        · exact absurd h3 (fun hc => mem_manifestEvents_addResource hc)
        · exact absurd h3 (fun hc => mem_versionEvents_addResource hc)
      · exact absurd h2 (fun hc => mem_templateEvents_addResource hc)
    · obtain ⟨dd, hs, hk, hn, hl, hd⟩ := mem_splashEvents_addResource h
      exact ⟨hl, fun _ => Or.inl ⟨hn, dd, hs, hd⟩⟩

/-! ## Claim theorems -/

/-- C1: the boundary behavior of the explicit single-index filter on a
container with `n = 2` parsed entries.  Requesting index 1 (`< n`)
selects exactly the second parsed entry; requesting index 2 (`= n`) is
not rejected — the source guard is `icon_index > len(icons)` — and
selects the empty slice `icons[2:3]`, proceeding without any error;
only index 3 (`> n`) produces the out-of-range error reporting the
requested index, the file and the available count.  This contradicts
the claim (and the wording of the source's own error message), which
requires every `i ≥ n` to fail; accordingly, the whole pipeline run
over the same container with the index-2 filter completes without any
error. -/
theorem selectIcons_boundary_bug :
    selectIcons (readIconEntries sampleIco2 2) (some 1) pathA =
      Except.ok [readIconDirectoryEntry sampleIco2 22]
    ∧ selectIcons (readIconEntries sampleIco2 2) (some 2) pathA = Except.ok []
    ∧ selectIcons (readIconEntries sampleIco2 2) (some 3) pathA =
      Except.error (FatalError.iconIndexOutOfRange 3 pathA 2)
    ∧ (addWindowsIconFromIcons envNone [specAIdx2]).2 = none := by
  refine ⟨?_, ?_, ?_, ?_⟩ <;> rfl

/-- C2 counterexample: the serialized `IconGroupDirectoryEntry` is 14
bytes long, not 12 as the claim states (1+1+1+1+2+2+4+2 = 14). -/
theorem groupEntry_bytes_ne_12 :
    (convertStructureToBytes
      { width := 1, height := 2, colors := 3, reserved := 4
        planes := 5, bit_count := 6, image_size := 7, id := 8 }).length ≠ 12 := by
  decide

/-- C2 (amended): for every field assignment, the serialized
`IconGroupDirectoryEntry` — the ctypes `_pack_ = 2` memory image of
the declared fields — has exactly 14 bytes, with the fields `width`,
`height`, `colors`, `reserved`, `planes`, `bit_count`, `image_size`,
`id` laid out consecutively with no padding bytes between them, each
in little-endian byte order. -/
theorem groupEntry_bytes_packed (e : IconGroupDirectoryEntry) :
    convertStructureToBytes e =
      [e.width % 256, e.height % 256, e.colors % 256, e.reserved % 256]
        ++ bytes16 e.planes ++ bytes16 e.bit_count
        ++ bytes32 e.image_size ++ bytes16 e.id
    ∧ (convertStructureToBytes e).length = 14 :=
  ⟨rfl, rfl⟩

/-- C3: in every invocation of `_addWindowsIconFromIcons` the image
ids carried by the emitted group entries form, in input order, the
strictly increasing sequence `1, 2, 3, ...`, continuing across icon
sources without reset; each invocation starts the counter afresh at 1.
Concretely, two ICO sources with 2 and 3 entries receive the id lists
`[1, 2]` and `[3, 4, 5]`. -/
theorem icon_image_ids_sequential :
    (∀ (env : PipelineEnv) (specs : List IconSpec),
      groupEntryIds (addWindowsIconFromIcons env specs).1 =
        natRange 1 (groupEntryIds (addWindowsIconFromIcons env specs).1).length)
    ∧ groupEntryIdLists (addWindowsIconFromIcons envNone [specA, specB]).1 =
      [[1, 2], [3, 4, 5]] := by
  constructor
  · intro env specs
    obtain ⟨k, hk⟩ := addIcons_ids env specs
    rw [hk, natRange_length]
  · decide

/-- C4: with two ICO sources in a single run, the pipeline writes two
group-icon resources carrying the identical triple
`(RT_GROUP_ICON, 1, 0)` — the source's `icon_group` name counter is
initialized to 1 and never incremented — so the triples written in one
run are not pairwise distinct and the second group-icon resource
overwrites the first. -/
theorem duplicate_group_icon_triple :
    ((addWindowsIconFromIcons envNone [specA, specB]).1.countP fun e =>
      match e with
      | Event.addResource k n l _ => k == RT_GROUP_ICON && n == 1 && l == 0
      | _ => false) = 2
    ∧ (addWindowsIconFromIcons envNone [specA, specB]).2 = none := by
  constructor <;> rfl

/-- C5 counterexample: an ICO stream whose header type field is 2
(not 1) is not rejected: the run completes without any error and still
writes a group-icon resource built from the invalid data, refuting the
claim that a malformed header aborts the operation. -/
theorem malformed_type_no_abort :
    (readIconDirectoryHeader sampleIcoBadType).type = 2
    ∧ (addWindowsIconFromIcons envNone [specBadType]).2 = none
    ∧ ((addWindowsIconFromIcons envNone [specBadType]).1.countP fun e =>
        match e with
        | Event.addResource k _ _ _ => k == RT_GROUP_ICON
        | _ => false) = 1 := by
  refine ⟨?_, ?_, ?_⟩ <;> rfl

/-- C5 (amended): the ICO reader performs no validation at all: for
every ICO-suffixed source without an index filter — malformed type
field or truncated stream included — the icon-reading run never
aborts; `readFromFile` fills each structure from whatever bytes the
read returned and processing continues with that data.  Only the
explicit index filter (and the non-ICO conversion path) can abort. -/
theorem ico_read_never_aborts (env : PipelineEnv) (s : IconSpec)
    (hico : isIcoPath s.path = true) (hidx : s.index = none) :
    (addWindowsIconFromIcons env [s]).2 = none := by
  simp [addWindowsIconFromIcons, runSpecs, processSpec, hico, hidx,
    readIcoAndBuild, selectIcons]

/-- C5 witness: the no-abort theorem applied to the malformed-header
sample stream. -/
theorem ico_read_never_aborts_witness :
    isIcoPath specBadType.path = true ∧ specBadType.index = none ∧
    (addWindowsIconFromIcons envNone [specBadType]).2 = none :=
  ⟨by decide, rfl, ico_read_never_aborts envNone specBadType (by decide) rfl⟩

/-- C6: for an icon specification whose path is not in ICO format:
with an explicit index the run fails fatally with only the info log
performed — before any I/O on the icon file; without an index and
without the raster library it fails naming the missing dependency
(still before touching the file); with the library but a failing
decode it fails with the unsupported-image-format error (after the
file-reading `imread` call). -/
theorem non_ico_error_handling (env : PipelineEnv) (s : IconSpec)
    (hico : isIcoPath s.path = false) :
    (∀ i, s.index = some i →
      addWindowsIconFromIcons env [s] =
        ([Event.info], some (FatalError.indexWithNonIco s.path i)))
    ∧ (s.index = none → env.imageio_available = false →
      addWindowsIconFromIcons env [s] =
        ([Event.info], some (FatalError.missingImageio s.path)))
    ∧ (s.index = none → env.imageio_available = true → env.imread s.path = none →
      addWindowsIconFromIcons env [s] =
        ([Event.info, Event.imreadFile s.path],
          some (FatalError.unsupportedImageFormat s.path))) := by
  refine ⟨?_, ?_, ?_⟩
  · intro i hidx
    simp [addWindowsIconFromIcons, runSpecs, processSpec, hico, hidx]
  · intro hidx havail
    simp [addWindowsIconFromIcons, runSpecs, processSpec, hico, hidx, havail]
  · intro hidx havail hread
    simp [addWindowsIconFromIcons, runSpecs, processSpec, hico, hidx, havail, hread]

/-- C6 witness: a PNG source with an explicit index fails with the
configuration-conflict error and an event trace containing no I/O on
the icon file. -/
theorem non_ico_error_handling_witness :
    isIcoPath specPngIdx.path = false ∧
    addWindowsIconFromIcons envNone [specPngIdx] =
      ([Event.info], some (FatalError.indexWithNonIco pngPath 0)) :=
  ⟨by decide, (non_ico_error_handling envNone specPngIdx (by decide)).1 0 rfl⟩

/-- C7: when a template executable is configured, the resources step
copies the icon resources from it instead of building them from icon
files (the copy event is present, no icon file is opened, and every
resource written directly by this step is a raw-data resource, never a
group-icon or icon resource); the step always completes without fatal
error, and a zero copy count only adds a warning — it is never
fatal. -/
theorem template_copy_soft_warning (env : PipelineEnv) (opts : ResourceOptions)
    (m0 : Option Manifest) (t : String) (h : opts.templateExe = some t) :
    (executePostProcessingResources env opts m0).2 = none
    ∧ Event.copyResources t (env.copyResourcesCount t) ∈
        (executePostProcessingResources env opts m0).1
    ∧ (env.copyResourcesCount t = 0 →
        Event.warning (WarningKind.templateZero t) ∈
          (executePostProcessingResources env opts m0).1)
    ∧ (∀ k n l d, Event.addResource k n l d ∈
        (executePostProcessingResources env opts m0).1 → k = RT_RCDATA)
    ∧ (∀ q, Event.openFile q ∉ (executePostProcessingResources env opts m0).1) := by
  refine ⟨?_, ?_, ?_, ?_, ?_⟩
  · simp [executePostProcessingResources, h]
  · simp [executePostProcessingResources, h, templateEvents, List.mem_append]
  · intro h0
    simp [executePostProcessingResources, h, templateEvents, h0, List.mem_append]
  · intro k n l d hmem
    simp only [executePostProcessingResources, h] at hmem
    rcases List.mem_append.mp hmem with h2 | h2
    · rcases List.mem_append.mp h2 with h3 | h3
      · rcases List.mem_append.mp h3 with h4 | h4
        · exact absurd h4 (fun hc => mem_manifestEvents_addResource hc)
        · exact absurd h4 (fun hc => mem_versionEvents_addResource hc)
      · exact absurd h3 (fun hc => mem_templateEvents_addResource hc)
    · obtain ⟨dd, _, hk, _, _, _⟩ := mem_splashEvents_addResource h2
      exact hk
  · intro q hmem
    simp only [executePostProcessingResources, h] at hmem
    rcases List.mem_append.mp hmem with h2 | h2
    · rcases List.mem_append.mp h2 with h3 | h3
      · rcases List.mem_append.mp h3 with h4 | h4
        · exact mem_manifestEvents_openFile h4
        · exact mem_versionEvents_openFile h4
      · exact mem_templateEvents_openFile h3
    · exact mem_splashEvents_openFile h2

/-- C7 witness: the template theorem applied to a configuration whose
template contributes zero resources: the step warns and completes. -/
theorem template_copy_soft_warning_witness :
    optsTemplate.templateExe = some templatePath
    ∧ (executePostProcessingResources envNone optsTemplate none).2 = none
    ∧ Event.warning (WarningKind.templateZero templatePath) ∈
        (executePostProcessingResources envNone optsTemplate none).1 := by
  have h := template_copy_soft_warning envNone optsTemplate none templatePath rfl
  exact ⟨rfl, h.1, h.2.2.1 rfl⟩

/-- C8: on the resource-bearing platform the embedding steps occur in
the fixed order manifest (rank 0), version info (rank 1), icon
resources (rank 2), raw-data blobs (rank 3): in every configuration —
whichever steps actually run — the rank sequence of the performed
steps, in execution order, is nondecreasing, so no later step ever
precedes an earlier one. -/
theorem resource_steps_ordered (env : PipelineEnv) (p : PostOptions) :
    List.Pairwise (fun a b => a ≤ b) (ranksOf (executePostProcessing env p).1) := by
  have hblob : SortedBetween
      [Event.addResource RT_RCDATA 3 0 (ResourceData.rawBytes p.constantBlob)] 3 3 := by
    apply sortedBetween_of_const
    intro e he
    simp at he
    simp [he, stepRank, RT_RCDATA]
  have main : SortedBetween (executePostProcessing env p).1 0 3 := by
    unfold executePostProcessing
    by_cases h1 : p.resultFileExists <;> simp only [h1, if_true, if_false]
    · by_cases h2 : p.isWin32 <;> simp only [h2, if_true, if_false]
      · by_cases h3 : p.shallMakeModule <;> simp only [h3, if_true, if_false]
        · exact sortedBetween_weaken hblob (by omega) (by omega)
        · rcases herr : (executePostProcessingResources env p.resOpts
              (if p.pythonVersionBelow300 then some p.cpythonManifest else none)).2
            with _ | e0 <;> simp only [herr]
          · exact sortedBetween_append (resources_sorted env p.resOpts _) hblob
              (by omega) (by omega)
          · exact resources_sorted env p.resOpts _
      · exact ⟨List.Pairwise.nil, by intro a ha; simp [ranksOf] at ha⟩
    · exact ⟨List.Pairwise.nil, by intro a ha; simp [ranksOf] at ha⟩
  exact main.1

/-- C9: on Windows, when building a module, the orchestrator skips the
manifest, version-info, icon and splash-screen steps entirely and
still embeds the constant blob: its whole resource trace is exactly
the one `RT_RCDATA` resource with id 3. -/
theorem module_build_only_blob (env : PipelineEnv) (p : PostOptions)
    (h1 : p.resultFileExists = true) (h2 : p.isWin32 = true)
    (h3 : p.shallMakeModule = true) :
    executePostProcessing env p =
      ([Event.addResource RT_RCDATA 3 0 (ResourceData.rawBytes p.constantBlob)], none) := by
  simp [executePostProcessing, h1, h2, h3]

/-- C9 witness: the module theorem applied to a concrete module
configuration. -/
theorem module_build_only_blob_witness :
    executePostProcessing envNone postModule =
      ([Event.addResource RT_RCDATA 3 0 (ResourceData.rawBytes [1, 2])], none) :=
  module_build_only_blob envNone postModule rfl rfl rfl

/-- C10: every resource the pipeline writes through
`addResourceToFile` carries language id 0, and a raw-data resource is
always at one of the two fixed reserved identifiers: 27 carrying the
configured splash-screen bytes, or 3 carrying the constant blob —
identically in every run. -/
theorem resource_ids_fixed (env : PipelineEnv) (p : PostOptions) (k n l : Nat)
    (d : ResourceData)
    (hmem : Event.addResource k n l d ∈ (executePostProcessing env p).1) :
    resourceTripleOK p k n l d := by
  unfold executePostProcessing at hmem
  by_cases h1 : p.resultFileExists <;> simp only [h1, if_true, if_false] at hmem
  · by_cases h2 : p.isWin32 <;> simp only [h2, if_true, if_false] at hmem
    · by_cases h3 : p.shallMakeModule <;> simp only [h3, if_true, if_false] at hmem
      · simp at hmem
        obtain ⟨hk, hn, hl, hd⟩ := hmem
        subst hk; subst hn; subst hl; subst hd
        exact ⟨rfl, fun _ => Or.inr ⟨rfl, rfl⟩⟩
      · rcases herr : (executePostProcessingResources env p.resOpts
            (if p.pythonVersionBelow300 then some p.cpythonManifest else none)).2
          with _ | e0 <;> simp only [herr] at hmem
        · rcases List.mem_append.mp hmem with h | h
          · exact resources_tripleOK env p _ k n l d h
          · simp at h
            obtain ⟨hk, hn, hl, hd⟩ := h
            subst hk; subst hn; subst hl; subst hd
            exact ⟨rfl, fun _ => Or.inr ⟨rfl, rfl⟩⟩
        · exact resources_tripleOK env p _ k n l d hmem
    · simp at hmem
  · simp at hmem

/-- C10 witness: the identity theorem applied to the constant-blob
resource of the concrete module configuration. -/
theorem resource_ids_fixed_witness :
    Event.addResource RT_RCDATA 3 0 (ResourceData.rawBytes [1, 2]) ∈
      (executePostProcessing envNone postModule).1
    ∧ resourceTripleOK postModule RT_RCDATA 3 0 (ResourceData.rawBytes [1, 2]) := by
  have hmem : Event.addResource RT_RCDATA 3 0 (ResourceData.rawBytes [1, 2]) ∈
      (executePostProcessing envNone postModule).1 := by decide
  exact ⟨hmem, resource_ids_fixed envNone postModule RT_RCDATA 3 0
    (ResourceData.rawBytes [1, 2]) hmem⟩

end NuitkaPost
